import Mathlib

/-
  Verification of the ARCHIPEL LAN peer-to-peer node against its
  natural-language specification.

  The development shallowly embeds the JavaScript core into Lean:
  byte buffers are `List Nat` (each element a byte value), hex strings are
  `List (Fin 16)` (one element per hex digit; JS `Buffer.toString` on hex
  normalises case, so a case-free digit alphabet is the faithful carrier),
  and external Node `crypto` primitives (HMAC-SHA256, SHA-256, X25519 DH,
  Ed25519 signing) are explicit function parameters of the embedded
  operations: the repository calls them as black boxes, so the embedding
  quantifies over them and states the properties the library guarantees
  (output length, DH commutativity) as hypotheses where a claim needs them.
  Stateful modules (web-of-trust file, peer table, relay queue) become
  explicit state passing.
-/

namespace Archipel

/-! ## Hex encoding

JS `Buffer.from(hex, 'hex')` and `buf.toString('hex')`, restricted to
well-formed (even-length) digit sequences as produced and consumed by the
code under study. -/

/-- Decode a hex digit sequence into bytes, two digits per byte
(`Buffer.from(s, 'hex')`); a trailing lone digit is dropped, as in Node. -/
def hexDecode : List (Fin 16) → List Nat
  | hi :: lo :: rest => (hi.val * 16 + lo.val) :: hexDecode rest
  | _ => []

/-- Encode bytes as hex digits, two digits per byte (`buf.toString('hex')`). -/
def hexEncode : List Nat → List (Fin 16)
  | [] => []
  | b :: rest =>
      ⟨b / 16 % 16, Nat.mod_lt _ (by omega)⟩ ::
      ⟨b % 16, Nat.mod_lt _ (by omega)⟩ :: hexEncode rest

theorem hexDecode_length : ∀ ds : List (Fin 16), (hexDecode ds).length = ds.length / 2
  | [] => rfl
  | [_] => by simp [hexDecode]
  | _ :: _ :: rest => by
      simp [hexDecode, hexDecode_length rest]
      omega

theorem hexDecode_lt : ∀ (ds : List (Fin 16)) (b : Nat), b ∈ hexDecode ds → b < 256
  | hi :: lo :: rest, b, hb => by
      simp [hexDecode] at hb
      rcases hb with h | h
      · have h1 := hi.isLt
        have h2 := lo.isLt
        omega
      · exact hexDecode_lt rest b h

theorem hexEncode_hexDecode : ∀ ds : List (Fin 16), ds.length % 2 = 0 →
    hexEncode (hexDecode ds) = ds
  | [], _ => rfl
  | [_], h => by simp at h
  | hi :: lo :: rest, h => by
      have ih := hexEncode_hexDecode rest (by simp at h; omega)
      have h1 := hi.isLt
      have h2 := lo.isLt
      simp [hexDecode, hexEncode, ih]
      constructor
      · apply Fin.ext
        show (hi.val * 16 + lo.val) / 16 % 16 = hi.val
        omega
      · apply Fin.ext
        show (hi.val * 16 + lo.val) % 16 = lo.val
        omega

/-! ## Packet codec (src/crypto/packet.js)

Frame layout: `MAGIC(4) | TYPE(1) | NODE_ID(32) | PAYLOAD_LEN(4 BE) |
PAYLOAD(N) | HMAC-SHA256(32)`.  The HMAC primitive (the file-local `hmac`
wrapper around Node `createHmac`, key-material selection included) enters as
the parameter `hm : data → key → mac`. -/

/-- Magic bytes `"ARCH"`. -/
def MAGIC : List Nat := [0x41, 0x52, 0x43, 0x48]

/-- `PacketType.HELLO`. -/
def typeHELLO : Nat := 0x01

/-- `PacketType.MSG`. -/
def typeMSG : Nat := 0x03

def HMAC_SIZE : Nat := 32

def nmHELLO : String := "HELLO"
def nmPEER_LIST : String := "PEER_LIST"
def nmMSG : String := "MSG"
def nmCHUNK_REQ : String := "CHUNK_REQ"
def nmCHUNK_DATA : String := "CHUNK_DATA"
def nmMANIFEST : String := "MANIFEST"
def nmACK : String := "ACK"
def nmRELAY : String := "RELAY"
def nmUNKNOWN : String := "UNKNOWN"

/-- `PacketTypeName[type] || 'UNKNOWN'`. -/
def typeNameOf (t : Nat) : String :=
  if t = 0x01 then nmHELLO
  else if t = 0x02 then nmPEER_LIST
  else if t = 0x03 then nmMSG
  else if t = 0x04 then nmCHUNK_REQ
  else if t = 0x05 then nmCHUNK_DATA
  else if t = 0x06 then nmMANIFEST
  else if t = 0x07 then nmACK
  else if t = 0x08 then nmRELAY
  else nmUNKNOWN

/-- `buf.slice(a, b)` on a byte buffer. -/
def bslice (buf : List Nat) (a b : Nat) : List Nat :=
  (buf.drop a).take (b - a)

/-- `writeUInt32BE`: the four big-endian bytes of a 32-bit length. -/
def u32be (n : Nat) : List Nat :=
  [n / 2 ^ 24 % 256, n / 2 ^ 16 % 256, n / 2 ^ 8 % 256, n % 256]

/-- `buf.readUInt32BE(off)`. -/
def readU32BE (buf : List Nat) (off : Nat) : Nat :=
  buf.getD off 0 * 2 ^ 24 + buf.getD (off + 1) 0 * 2 ^ 16 +
    buf.getD (off + 2) 0 * 2 ^ 8 + buf.getD (off + 3) 0

/-- The in-memory view of a validated frame, exactly the object literal
returned by `parsePacket`: no further fields exist. -/
structure Packet where
  type : Nat
  typeName : String
  nodeId : List (Fin 16)
  payload : List Nat
deriving DecidableEq, Repr

/-- `buildPacket(type, nodeIdHex, payload, key)`: header ‖ payload ‖ HMAC of
the prefix.  `Buffer.from([type])` stores the type byte mod 256 and
`nodeIdHex.slice(0, 64)` keeps the first 64 hex digits. -/
def buildPacket (hm : List Nat → List Nat → List Nat)
    (type : Nat) (nodeIdHex : List (Fin 16)) (payload : List Nat)
    (key : List Nat) : List Nat :=
  let nodeId := hexDecode (nodeIdHex.take 64)
  let body := MAGIC ++ [type % 256] ++ nodeId ++ u32be payload.length ++ payload
  body ++ hm body key

/-- `parsePacket(buf, key)`, branch for branch: minimum-length check, magic
check, declared-length check, constant-time MAC comparison with the
HELLO discovery exception. -/
def parsePacket (hm : List Nat → List Nat → List Nat)
    (buf : List Nat) (key : List Nat) : Option Packet :=
  if buf.length < 4 + 1 + 32 + 4 + HMAC_SIZE then none
  else if bslice buf 0 4 ≠ MAGIC then none
  else
    let type := buf.getD 4 0
    let nodeId := hexEncode (bslice buf 5 37)
    let payloadLen := readU32BE buf 37
    let payloadEnd := 41 + payloadLen
    if buf.length < payloadEnd + HMAC_SIZE then none
    else
      let payload := bslice buf 41 payloadEnd
      let receivedMac := bslice buf payloadEnd (payloadEnd + HMAC_SIZE)
      let body := bslice buf 0 payloadEnd
      let expectedMac := hm body key
      if receivedMac ≠ expectedMac then
        if type = typeHELLO then
          some ⟨type, typeNameOf type, nodeId, payload⟩
        else none
      else
        some ⟨type, typeNameOf type, nodeId, payload⟩

/-! ## Parsing a well-formed frame -/

theorem readU32BE_append (pre post : List Nat) (n off : Nat)
    (hpre : pre.length = off) (hn : n < 2 ^ 32) :
    readU32BE (pre ++ (u32be n ++ post)) off = n := by
  simp only [readU32BE]
  rw [List.getD_append_right pre _ 0 off (by omega),
    List.getD_append_right pre _ 0 (off + 1) (by omega),
    List.getD_append_right pre _ 0 (off + 2) (by omega),
    List.getD_append_right pre _ 0 (off + 3) (by omega), hpre]
  have e0 : off - off = 0 := by omega
  have e1 : off + 1 - off = 1 := by omega
  have e2 : off + 2 - off = 2 := by omega
  have e3 : off + 3 - off = 3 := by omega
  rw [e0, e1, e2, e3]
  simp [u32be, List.getD]
  omega

/-- How `parsePacket` treats a single exact frame `header ‖ payload ‖ mac`:
the frame is accepted when the MAC is the HMAC of its prefix; on MAC
mismatch the HELLO type is still accepted (yielding the very same packet
value) and every other type is rejected. -/
theorem parsePacket_frame (hm : List Nat → List Nat → List Nat)
    (t : Nat) (nid payload mac key : List Nat)
    (hnid : nid.length = 32) (hmac32 : mac.length = 32)
    (hp : payload.length < 2 ^ 32) :
    parsePacket hm (MAGIC ++ [t] ++ nid ++ u32be payload.length ++ payload ++ mac) key =
      if mac = hm (MAGIC ++ [t] ++ nid ++ u32be payload.length ++ payload) key then
        some ⟨t, typeNameOf t, hexEncode nid, payload⟩
      else if t = typeHELLO then
        some ⟨t, typeNameOf t, hexEncode nid, payload⟩
      else none := by
  set B := MAGIC ++ [t] ++ nid ++ u32be payload.length ++ payload with hB
  have hBlen : B.length = 41 + payload.length := by
    simp [hB, MAGIC, u32be]
    omega
  have hlen : (B ++ mac).length = 73 + payload.length := by
    simp [hBlen, hmac32]
    omega
  have hs4 : B ++ mac = MAGIC ++ (t :: (nid ++ (u32be payload.length ++ (payload ++ mac)))) := by
    simp [hB, List.append_assoc]
  have hs5 : B ++ mac = (MAGIC ++ [t]) ++ (nid ++ (u32be payload.length ++ (payload ++ mac))) := by
    simp [hB, List.append_assoc]
  have hs37 : B ++ mac = ((MAGIC ++ [t]) ++ nid) ++ (u32be payload.length ++ (payload ++ mac)) := by
    simp [hB, List.append_assoc]
  have hs41 : B ++ mac = (((MAGIC ++ [t]) ++ nid) ++ u32be payload.length) ++ (payload ++ mac) := by
    simp [hB, List.append_assoc]
  have e_magic : bslice (B ++ mac) 0 4 = MAGIC := by
    simp only [bslice, List.drop_zero, Nat.sub_zero]
    rw [hs4]
    exact List.take_left' (by simp [MAGIC])
  have e_type : (B ++ mac).getD 4 0 = t := by
    rw [hs4, List.getD_append_right MAGIC _ 0 4 (by simp [MAGIC])]
    simp [MAGIC]
  have e_nid : bslice (B ++ mac) 5 37 = nid := by
    simp only [bslice]
    rw [hs5, List.drop_left' (by simp [MAGIC])]
    exact List.take_left' (by omega)
  have e_len : readU32BE (B ++ mac) 37 = payload.length := by
    rw [hs37]
    exact readU32BE_append _ _ _ _ (by simp [MAGIC, hnid]) hp
  have e_payload : bslice (B ++ mac) 41 (41 + payload.length) = payload := by
    simp only [bslice]
    rw [hs41, List.drop_left' (by simp [MAGIC, u32be, hnid])]
    exact List.take_left' (by omega)
  have e_mac : bslice (B ++ mac) (41 + payload.length) (41 + payload.length + 32) = mac := by
    simp only [bslice]
    rw [List.drop_left' hBlen]
    exact List.take_of_length_le (by omega)
  have e_body : bslice (B ++ mac) 0 (41 + payload.length) = B := by
    simp only [bslice, List.drop_zero, Nat.sub_zero]
    exact List.take_left' hBlen
  simp only [parsePacket, HMAC_SIZE]
  rw [if_neg (by rw [hlen]; omega)]
  rw [if_neg (by simp [e_magic])]
  rw [if_neg (by rw [hlen, e_len]; omega)]
  simp only [e_len, e_mac, e_body, e_type, e_nid, e_payload]
  by_cases h : mac = hm B key
  · simp [h]
  · simp [h]

/-- C5: the parse of a built packet succeeds and recovers type, node id and
payload, for every packet type byte, 64-hex-digit node id, payload and key. -/
theorem parse_build_roundtrip (hm : List Nat → List Nat → List Nat)
    (type : Nat) (nodeIdHex : List (Fin 16)) (payload key : List Nat)
    (h32 : ∀ d k, (hm d k).length = 32) (ht : type < 256)
    (hn : nodeIdHex.length = 64) (hp : payload.length < 2 ^ 32) :
    parsePacket hm (buildPacket hm type nodeIdHex payload key) key =
      some ⟨type, typeNameOf type, nodeIdHex, payload⟩ := by
  have htake : nodeIdHex.take 64 = nodeIdHex := List.take_of_length_le (by omega)
  have hnid : (hexDecode nodeIdHex).length = 32 := by
    rw [hexDecode_length, hn]
  have hbuild : buildPacket hm type nodeIdHex payload key =
      MAGIC ++ [type] ++ hexDecode nodeIdHex ++ u32be payload.length ++ payload ++
        hm (MAGIC ++ [type] ++ hexDecode nodeIdHex ++ u32be payload.length ++ payload) key := by
    simp only [buildPacket, htake, Nat.mod_eq_of_lt ht]
  rw [hbuild, parsePacket_frame hm type _ payload _ key hnid (h32 _ _) hp]
  rw [if_pos rfl, hexEncode_hexDecode nodeIdHex (by rw [hn])]

/-- A constant external HMAC used to instantiate the packet theorems on
concrete inputs. -/
def hmZero : List Nat → List Nat → List Nat := fun _ _ => List.replicate 32 0

/-- A second constant HMAC, used to manufacture frames whose MAC fails. -/
def hmOne : List Nat → List Nat → List Nat := fun _ _ => List.replicate 32 1

/-- A concrete 64-hex-digit node id. -/
def nid64 : List (Fin 16) := List.replicate 64 0

/-- Witness for C5: the round trip evaluated on a concrete MSG frame. -/
theorem parse_build_roundtrip_witness :
    (∀ d k, (hmZero d k).length = 32) ∧ 3 < 256 ∧ nid64.length = 64 ∧
      ([5, 6] : List Nat).length < 2 ^ 32 ∧
      parsePacket hmZero (buildPacket hmZero 3 nid64 [5, 6] [7]) [7] =
        some ⟨3, typeNameOf 3, nid64, [5, 6]⟩ :=
  ⟨fun _ _ => by simp [hmZero], by decide, by decide, by norm_num,
    parse_build_roundtrip hmZero 3 nid64 [5, 6] [7]
      (fun _ _ => by simp [hmZero]) (by decide) (by decide) (by norm_num)⟩

/-! ## Rejection conditions of parsePacket (C6)

The code's minimum-length guard is `4 + 1 + 32 + 4 + 32 = 73` bytes, not 77:
an empty-payload frame is 73 bytes long and parses successfully. -/

/-- C6 counterexample: a valid empty-payload frame is 73 bytes — shorter than
the claimed 77-byte minimum — yet parsePacket accepts it. -/
theorem parse_min_77_refuted :
    (buildPacket hmZero typeHELLO nid64 [] []).length < 77 ∧
      (parsePacket hmZero (buildPacket hmZero typeHELLO nid64 [] []) []).isSome = true := by
  decide

/-- C6 (amended): parsePacket returns none whenever the buffer is shorter
than the fixed minimum of 73 bytes, whenever the first four bytes differ
from the ARCH magic, and whenever the declared payload length plus header
and MAC exceeds the buffer length. -/
theorem parse_rejects (hm : List Nat → List Nat → List Nat)
    (buf key : List Nat)
    (h : buf.length < 73 ∨ bslice buf 0 4 ≠ MAGIC ∨
      buf.length < 41 + readU32BE buf 37 + 32) :
    parsePacket hm buf key = none := by
  simp only [parsePacket, HMAC_SIZE]
  rcases h with h | h | h
  · rw [if_pos (by omega)]
  · by_cases h1 : buf.length < 4 + 1 + 32 + 4 + 32
    · rw [if_pos h1]
    · rw [if_neg h1, if_pos h]
  · by_cases h1 : buf.length < 4 + 1 + 32 + 4 + 32
    · rw [if_pos h1]
    · rw [if_neg h1]
      by_cases h2 : bslice buf 0 4 ≠ MAGIC
      · rw [if_pos h2]
      · rw [if_neg h2, if_pos (by omega)]

/-- Witness for C6 (amended): the empty buffer is rejected. -/
theorem parse_rejects_witness :
    (([] : List Nat).length < 73 ∨ bslice [] 0 4 ≠ MAGIC ∨
        ([] : List Nat).length < 41 + readU32BE [] 37 + 32) ∧
      parsePacket hmZero [] [] = none :=
  ⟨Or.inl (by decide), parse_rejects hmZero [] [] (Or.inl (by decide))⟩

/-! ## The HELLO discovery exception (C1)

On MAC failure with type HELLO, `parsePacket` returns the same object
literal as the success path; the `Packet` record has no field recording
that verification was bypassed. -/

/-- C1 counterexample: a HELLO frame whose MAC fails verification parses to
exactly the same packet value as the correctly MACed frame — the result
carries no unverified flag (no field distinguishes the two cases at all). -/
theorem hello_mac_bypass_unflagged :
    bslice (buildPacket hmOne typeHELLO nid64 [] []) 41 73 ≠
        hmZero (bslice (buildPacket hmOne typeHELLO nid64 [] []) 0 41) [] ∧
      parsePacket hmZero (buildPacket hmOne typeHELLO nid64 [] []) [] =
        parsePacket hmZero (buildPacket hmZero typeHELLO nid64 [] []) [] ∧
      (parsePacket hmZero (buildPacket hmOne typeHELLO nid64 [] []) []).isSome = true := by
  decide

/-- C1 (amended): on a frame that passes the length and magic checks but
fails MAC verification, parsePacket still returns the parsed frame when the
type byte is HELLO — with no unverified marking, the value being the plain
parse of the buffer — and returns none for every other type. -/
theorem parse_mac_fail (hm : List Nat → List Nat → List Nat)
    (buf key : List Nat)
    (h1 : ¬ buf.length < 73) (h2 : bslice buf 0 4 = MAGIC)
    (h3 : ¬ buf.length < 41 + readU32BE buf 37 + 32)
    (h4 : bslice buf (41 + readU32BE buf 37) (41 + readU32BE buf 37 + 32) ≠
      hm (bslice buf 0 (41 + readU32BE buf 37)) key) :
    parsePacket hm buf key =
      if buf.getD 4 0 = typeHELLO then
        some ⟨buf.getD 4 0, typeNameOf (buf.getD 4 0), hexEncode (bslice buf 5 37),
          bslice buf 41 (41 + readU32BE buf 37)⟩
      else none := by
  simp only [parsePacket, HMAC_SIZE]
  rw [if_neg (by omega), if_neg (by simp [h2]), if_neg (by omega), if_pos h4]

/-- Witness for C1 (amended): a concrete bad-MAC HELLO frame is still parsed. -/
theorem parse_mac_fail_witness :
    (¬ (buildPacket hmOne typeHELLO nid64 [] []).length < 73) ∧
      bslice (buildPacket hmOne typeHELLO nid64 [] []) 0 4 = MAGIC ∧
      parsePacket hmZero (buildPacket hmOne typeHELLO nid64 [] []) [] =
        some ⟨typeHELLO, typeNameOf typeHELLO, nid64, []⟩ :=
  ⟨by decide, by decide, by
    rw [parse_mac_fail hmZero (buildPacket hmOne typeHELLO nid64 [] []) []
      (by decide) (by decide) (by decide) (by decide)]
    decide⟩

/-! ## Keyed record stores

JS objects and `Map`s keyed by node id are embedded as association lists
with lookup and in-place update. -/

def alookup {β : Type} : List (String × β) → String → Option β
  | [], _ => none
  | (k, v) :: rest, key => if k = key then some v else alookup rest key

def aset {β : Type} : List (String × β) → String → β → List (String × β)
  | [], key, v => [(key, v)]
  | (k, w) :: rest, key, v =>
      if k = key then (k, v) :: rest else (k, w) :: aset rest key v

theorem alookup_aset_self {β : Type} (m : List (String × β)) (k : String) (v : β) :
    alookup (aset m k v) k = some v := by
  induction m with
  | nil => simp [aset, alookup]
  | cons hd tl ih =>
      obtain ⟨k', w⟩ := hd
      by_cases h : k' = k
      · simp [aset, alookup, h]
      · simp [aset, alookup, h, ih]

/-! ## Web of Trust (src/crypto/wot.js)

The persisted `nodeId → record` object becomes explicit state; each
`checkTrust` call returns the successor state together with its result.
`Date.now()` enters as the `now` argument. -/

structure WotEntry where
  signingPub : String
  dhPub : String
  firstSeen : Nat
  lastSeen : Nat
  trusted : Bool
deriving DecidableEq, Repr

def stNew : String := "new"
def stKnown : String := "known"
def stMismatch : String := "mismatch"

structure TrustResult where
  status : String
  trusted : Bool
deriving DecidableEq, Repr

/-- `checkTrust(nodeId, signingPub, dhPub)`: TOFU creation on first contact,
key-consistency check afterwards. -/
def checkTrust (wot : List (String × WotEntry))
    (nodeId signingPub dhPub : String) (now : Nat) :
    List (String × WotEntry) × TrustResult :=
  match alookup wot nodeId with
  | none =>
      (aset wot nodeId ⟨signingPub, dhPub, now, now, true⟩, ⟨stNew, true⟩)
  | some entry =>
      if entry.signingPub ≠ signingPub ∨ entry.dhPub ≠ dhPub then
        (aset wot nodeId { entry with trusted := false }, ⟨stMismatch, false⟩)
      else
        (aset wot nodeId { entry with lastSeen := now }, ⟨stKnown, entry.trusted⟩)

/-- C7: the TOFU trichotomy of checkTrust — an unknown node id creates a
trusted record and reports status new; matching keys refresh lastSeen and
report status known with the stored trusted flag; a mismatching key clears
the trusted flag and reports status mismatch. -/
theorem checkTrust_trichotomy (wot : List (String × WotEntry))
    (nodeId signingPub dhPub : String) (now : Nat) :
    (alookup wot nodeId = none →
        (checkTrust wot nodeId signingPub dhPub now).2 = ⟨stNew, true⟩ ∧
        alookup (checkTrust wot nodeId signingPub dhPub now).1 nodeId =
          some ⟨signingPub, dhPub, now, now, true⟩) ∧
    (∀ e, alookup wot nodeId = some e → e.signingPub = signingPub →
        e.dhPub = dhPub →
        (checkTrust wot nodeId signingPub dhPub now).2 = ⟨stKnown, e.trusted⟩ ∧
        alookup (checkTrust wot nodeId signingPub dhPub now).1 nodeId =
          some { e with lastSeen := now }) ∧
    (∀ e, alookup wot nodeId = some e →
        e.signingPub ≠ signingPub ∨ e.dhPub ≠ dhPub →
        (checkTrust wot nodeId signingPub dhPub now).2 = ⟨stMismatch, false⟩ ∧
        alookup (checkTrust wot nodeId signingPub dhPub now).1 nodeId =
          some { e with trusted := false }) := by
  refine ⟨fun h => ?_, fun e he h1 h2 => ?_, fun e he h => ?_⟩
  · simp [checkTrust, h, alookup_aset_self]
  · simp [checkTrust, he, h1, h2, alookup_aset_self]
  · simp [checkTrust, he, h, alookup_aset_self]

/-- A concrete node id, key pair material and trust store for witnesses. -/
def idA : String := "aa"
def pubA : String := "p1"
def pubB : String := "p2"
def pubC : String := "p3"

def entryA : WotEntry := ⟨pubA, pubB, 1, 1, true⟩

def wotA : List (String × WotEntry) := [(idA, entryA)]

/-- Witness for C7: all three branches evaluated on concrete stores. -/
theorem checkTrust_trichotomy_witness :
    (alookup ([] : List (String × WotEntry)) idA = none ∧
      (checkTrust [] idA pubA pubB 5).2 = ⟨stNew, true⟩) ∧
    (alookup wotA idA = some entryA ∧
      (checkTrust wotA idA pubA pubB 5).2 = ⟨stKnown, true⟩) ∧
    (alookup wotA idA = some entryA ∧
      (checkTrust wotA idA pubC pubB 5).2 = ⟨stMismatch, false⟩) :=
  ⟨⟨rfl, ((checkTrust_trichotomy [] idA pubA pubB 5).1 rfl).1⟩,
    ⟨rfl, ((checkTrust_trichotomy wotA idA pubA pubB 5).2.1 entryA rfl rfl rfl).1⟩,
    ⟨rfl, ((checkTrust_trichotomy wotA idA pubC pubB 5).2.2 entryA rfl
      (Or.inl (by decide))).1⟩⟩

/-- C10: checkTrust never replaces pinned key material — the stored record
after any call on a known node id keeps its first-seen signingPub, dhPub and
firstSeen; a mismatch changes only the trusted flag and a match changes only
lastSeen. -/
theorem checkTrust_pins_keys (wot : List (String × WotEntry))
    (nodeId signingPub dhPub : String) (now : Nat) (e : WotEntry)
    (he : alookup wot nodeId = some e) :
    ∃ e', alookup (checkTrust wot nodeId signingPub dhPub now).1 nodeId = some e' ∧
      e'.signingPub = e.signingPub ∧ e'.dhPub = e.dhPub ∧
      e'.firstSeen = e.firstSeen ∧
      ((e.signingPub ≠ signingPub ∨ e.dhPub ≠ dhPub) →
        e' = { e with trusted := false }) ∧
      (e.signingPub = signingPub ∧ e.dhPub = dhPub →
        e' = { e with lastSeen := now }) := by
  by_cases h : e.signingPub ≠ signingPub ∨ e.dhPub ≠ dhPub
  · refine ⟨{ e with trusted := false }, ?_, rfl, rfl, rfl, fun _ => rfl, fun hm => ?_⟩
    · simp [checkTrust, he, h, alookup_aset_self]
    · rcases h with h | h
      · exact absurd hm.1 h
      · exact absurd hm.2 h
  · push_neg at h
    refine ⟨{ e with lastSeen := now }, ?_, rfl, rfl, rfl, fun hm => ?_, fun _ => rfl⟩
    · simp [checkTrust, he, h.1, h.2, alookup_aset_self]
    · rcases hm with hm | hm
      · exact absurd h.1 hm
      · exact absurd h.2 hm

/-- Witness for C10: a mismatching call on a concrete store keeps the pinned
keys. -/
theorem checkTrust_pins_keys_witness :
    alookup wotA idA = some entryA ∧
      ∃ e', alookup (checkTrust wotA idA pubC pubB 9).1 idA = some e' ∧
        e'.signingPub = entryA.signingPub ∧ e'.dhPub = entryA.dhPub ∧
        e'.firstSeen = entryA.firstSeen ∧
        ((entryA.signingPub ≠ pubC ∨ entryA.dhPub ≠ pubB) →
          e' = { entryA with trusted := false }) ∧
        (entryA.signingPub = pubC ∧ entryA.dhPub = pubB →
          e' = { entryA with lastSeen := 9 }) :=
  ⟨rfl, checkTrust_pins_keys wotA idA pubC pubB 9 entryA rfl⟩

/-! ## Peer table (peer-table.js)

The singleton `Map<string, PeerEntry>` becomes explicit state.  Reputation
is an `Int` so that the JS subtraction inside `Math.max(0, …)` keeps its
meaning for penalties larger than the current score. -/

structure PeerEntry where
  nodeId : String
  ip : String
  tcpPort : Nat
  dhPublicKey : String
  signingPublicKey : String
  sharedFiles : List String
  lastSeen : Nat
  reputation : Int
  sessionKey : Option String
deriving DecidableEq, Repr

structure PeerInfo where
  nodeId : String
  ip : String
  tcpPort : Nat
  dhPublicKey : String
  signingPublicKey : String
  sharedFiles : List String
deriving DecidableEq, Repr

/-- `PeerTable.upsert(peerInfo)`: refresh the advertised fields and
lastSeen, keep reputation and session key when the entry already exists,
else start at reputation 100 without a session key.  (The call into the
persistent peers relation is a side effect outside this table.) -/
def upsert (pt : List (String × PeerEntry)) (info : PeerInfo) (now : Nat) :
    List (String × PeerEntry) :=
  let existing := alookup pt info.nodeId
  aset pt info.nodeId
    { nodeId := info.nodeId
      ip := info.ip
      tcpPort := info.tcpPort
      dhPublicKey := info.dhPublicKey
      signingPublicKey := info.signingPublicKey
      sharedFiles := info.sharedFiles
      lastSeen := now
      reputation := match existing with | some e => e.reputation | none => 100
      sessionKey := match existing with | some e => e.sessionKey | none => none }

/-- `PeerTable.penalize(nodeId, amount = 10)`. -/
def penalize (pt : List (String × PeerEntry)) (nodeId : String) (amount : Int) :
    List (String × PeerEntry) :=
  match alookup pt nodeId with
  | some e => aset pt nodeId { e with reputation := max 0 (e.reputation - amount) }
  | none => pt

/-- C9: the peer-table reputation/session invariant — upsert of a known node
id preserves its reputation and session key while refreshing address, port,
keys, shared files and lastSeen; upsert of an unknown node id creates the
entry with reputation 100 and no session key; penalize never drives the
stored reputation below 0. -/
theorem peer_table_invariant (pt : List (String × PeerEntry)) (info : PeerInfo)
    (now : Nat) (nodeId : String) (amount : Int) :
    (∀ e, alookup pt info.nodeId = some e →
        alookup (upsert pt info now) info.nodeId =
          some ⟨info.nodeId, info.ip, info.tcpPort, info.dhPublicKey,
            info.signingPublicKey, info.sharedFiles, now, e.reputation,
            e.sessionKey⟩) ∧
    (alookup pt info.nodeId = none →
        alookup (upsert pt info now) info.nodeId =
          some ⟨info.nodeId, info.ip, info.tcpPort, info.dhPublicKey,
            info.signingPublicKey, info.sharedFiles, now, 100, none⟩) ∧
    (∀ e, alookup pt nodeId = some e →
        ∃ e', alookup (penalize pt nodeId amount) nodeId = some e' ∧
          e'.reputation = max 0 (e.reputation - amount) ∧
          0 ≤ e'.reputation) := by
  refine ⟨fun e he => ?_, fun h => ?_, fun e he => ?_⟩
  · simp [upsert, he, alookup_aset_self]
  · simp [upsert, h, alookup_aset_self]
  · refine ⟨{ e with reputation := max 0 (e.reputation - amount) }, ?_, rfl, ?_⟩
    · simp [penalize, he, alookup_aset_self]
    · exact le_max_left 0 _

def peerInfoA : PeerInfo := ⟨idA, pubA, 7777, pubB, pubC, []⟩

def peerEntryA : PeerEntry := ⟨idA, pubA, 7000, pubB, pubC, [], 2, 5, some pubB⟩

def ptA : List (String × PeerEntry) := [(idA, peerEntryA)]

/-- Witness for C9: the invariant evaluated on a concrete table holding one
peer with reputation 5 and a session key, penalised by 50. -/
theorem peer_table_invariant_witness :
    (alookup ptA peerInfoA.nodeId = some peerEntryA ∧
      alookup (upsert ptA peerInfoA 9) peerInfoA.nodeId =
        some ⟨idA, pubA, 7777, pubB, pubC, [], 9, 5, some pubB⟩) ∧
    (alookup ([] : List (String × PeerEntry)) peerInfoA.nodeId = none ∧
      alookup (upsert [] peerInfoA 9) peerInfoA.nodeId =
        some ⟨idA, pubA, 7777, pubB, pubC, [], 9, 100, none⟩) ∧
    (∃ e', alookup (penalize ptA idA 50) idA = some e' ∧
      e'.reputation = max 0 ((5 : Int) - 50) ∧ 0 ≤ e'.reputation) :=
  ⟨⟨rfl, (peer_table_invariant ptA peerInfoA 9 idA 50).1 peerEntryA rfl⟩,
    ⟨rfl, (peer_table_invariant [] peerInfoA 9 idA 50).2.1 rfl⟩,
    (peer_table_invariant ptA peerInfoA 9 idA 50).2.2 peerEntryA rfl⟩

/-! ## Relay queue (src/database/db.js)

The `relay_queue` relation becomes a list of rows; `fetchRelayMessages`
returns the successor table together with the selected rows.  (The JSON
round trip of `packet_data` through the row is kept opaque.) -/

structure RelayRow where
  id : Nat
  target_id : String
  sender_id : String
  packet_data : String
  expires_at : Nat
deriving DecidableEq, Repr

/-- `fetchRelayMessages(targetId)`: purge expired rows, select the rows for
the target, then delete every row for the target. -/
def fetchRelayMessages (q : List RelayRow) (targetId : String) (now : Nat) :
    List RelayRow × List RelayRow :=
  let purged := q.filter fun r => decide (¬ r.expires_at < now)
  let result := purged.filter fun r => decide (r.target_id = targetId)
  let remaining := purged.filter fun r => decide (¬ r.target_id = targetId)
  (remaining, result)

/-- C8: fetchRelayMessages returns exactly the non-expired rows queued for
the target, afterwards no row for that target remains, and an immediate
second fetch for the same target returns the empty list. -/
theorem fetch_relay_single_delivery (q : List RelayRow) (targetId : String)
    (now : Nat) :
    (∀ r, r ∈ (fetchRelayMessages q targetId now).2 ↔
        r ∈ q ∧ ¬ r.expires_at < now ∧ r.target_id = targetId) ∧
    (∀ r, r ∈ (fetchRelayMessages q targetId now).1 → r.target_id ≠ targetId) ∧
    (fetchRelayMessages (fetchRelayMessages q targetId now).1 targetId now).2 = [] := by
  refine ⟨fun r => ?_, fun r hr => ?_, ?_⟩
  · simp [fetchRelayMessages, List.mem_filter]
    tauto
  · simp [fetchRelayMessages, List.mem_filter] at hr
    exact hr.2.1
  · simp only [fetchRelayMessages, List.filter_filter]
    rw [List.filter_eq_nil_iff]
    intro r hr
    simp
    tauto

/-- Witness for C8 is not required (the theorem has no hypothesis); the
property is nevertheless exercised on a concrete queue. -/
theorem fetch_relay_single_delivery_example :
    (fetchRelayMessages
        [⟨1, idA, pubA, pubB, 10⟩, ⟨2, pubA, idA, pubC, 10⟩, ⟨3, idA, pubA, pubC, 1⟩]
        idA 5).2 = [⟨1, idA, pubA, pubB, 10⟩] ∧
    (fetchRelayMessages
        [⟨1, idA, pubA, pubB, 10⟩, ⟨2, pubA, idA, pubC, 10⟩, ⟨3, idA, pubA, pubC, 1⟩]
        idA 5).1 = [⟨2, pubA, idA, pubC, 10⟩] := by
  decide

/-! ## Identity (identity module)

Key material is carried as the hex strings the code stores.  The external
SHA-256 over the DER signing public key (`createHash('sha256')…digest('hex')`
composed with the hex rendering of the key) enters as the parameter `hash`;
key generation randomness enters as the fresh key-pair arguments, and the
keys file as the `file` argument. -/

structure KeyPair where
  publicKey : String
  privateKey : String
deriving DecidableEq, Repr

structure Identity where
  nodeId : String
  signing : KeyPair
  dh : KeyPair
deriving DecidableEq, Repr

/-- `generateIdentity()`: the node id is the hash of the signing public key. -/
def generateIdentity (hash : String → String) (signingKP dhKP : KeyPair) :
    Identity :=
  { nodeId := hash signingKP.publicKey, signing := signingKP, dh := dhKP }

/-- `loadOrCreateIdentity()`: when the keys file exists its parsed content is
returned verbatim — no field is inspected or recomputed; only in its absence
is a fresh identity generated (and saved). -/
def loadOrCreateIdentity (hash : String → String) (file : Option Identity)
    (signingKP dhKP : KeyPair) : Identity :=
  match file with
  | some stored => stored
  | none => generateIdentity hash signingKP dhKP

def hashC : String → String := fun _ => pubA

def storedBad : Identity := ⟨pubB, ⟨pubC, pubC⟩, ⟨pubC, pubC⟩⟩

def kpA : KeyPair := ⟨pubA, pubB⟩

/-- C3 counterexample: a persisted identity whose nodeId is not the hash of
its signing public key is returned unchanged by loadOrCreateIdentity — no
re-check of the invariant happens on load. -/
theorem load_identity_unchecked :
    loadOrCreateIdentity hashC (some storedBad) kpA kpA = storedBad ∧
      storedBad.nodeId ≠ hashC storedBad.signing.publicKey :=
  ⟨rfl, by decide⟩

/-- C3 (amended): generateIdentity always establishes
nodeId = hash(signingPub), and loadOrCreateIdentity satisfies the invariant
when it creates a fresh identity; a persisted identity, however, is returned
verbatim without any re-check, so the invariant holds after a load only if
the stored file already satisfied it. -/
theorem identity_invariant (hash : String → String) (signingKP dhKP : KeyPair)
    (stored : Identity) :
    (generateIdentity hash signingKP dhKP).nodeId =
        hash (generateIdentity hash signingKP dhKP).signing.publicKey ∧
      loadOrCreateIdentity hash none signingKP dhKP =
        generateIdentity hash signingKP dhKP ∧
      loadOrCreateIdentity hash (some stored) signingKP dhKP = stored :=
  ⟨rfl, rfl, rfl⟩

/-! ## Messenger (src/messaging/messenger.js)

`Messenger.send` on its direct path builds the outgoing MSG payload object.
The method has the peer table module in scope yet never consults it — the
payload is constructed before anything about the target peer is read — so
the established session key cannot influence the result.  The external
Ed25519 `signData` enters as the parameter `sign`. -/

structure MsgPayload where
  ciphertext : String
  nonce : Option String
  timestamp : Nat
  signature : String
  nodeId : String
deriving DecidableEq, Repr

/-- The payload object `Messenger.send(nodeId, message)` serialises into the
MSG frame (messenger.js lines 33-42): plaintext ciphertext, null nonce, an
Ed25519 signature over the plaintext, and the sender node id. -/
def messengerSendPayload (sign : String → String → String)
    (_pt : List (String × PeerEntry)) (identity : Identity)
    (_targetNodeId message : String) (now : Nat) : MsgPayload :=
  { ciphertext := message
    nonce := none
    timestamp := now
    signature := sign message identity.signing.privateKey
    nodeId := identity.nodeId }

/-- C2: evaluation of Messenger.send at the failing input — even when the
peer table holds an established session key for the target, the built MSG
payload has a null nonce and carries the plaintext itself as ciphertext
(no AEAD encryption happens); only the signature clause of the claim holds. -/
theorem send_ignores_session_key (sign : String → String → String)
    (pt : List (String × PeerEntry)) (identity : Identity)
    (targetNodeId message : String) (now : Nat) (e : PeerEntry) (k : String)
    (_he : alookup pt targetNodeId = some e) (_hk : e.sessionKey = some k) :
    (messengerSendPayload sign pt identity targetNodeId message now).nonce = none ∧
      (messengerSendPayload sign pt identity targetNodeId message now).ciphertext =
        message ∧
      (messengerSendPayload sign pt identity targetNodeId message now).signature =
        sign message identity.signing.privateKey :=
  ⟨rfl, rfl, rfl⟩

/-- Witness for C2: a concrete peer table with an established session key. -/
theorem send_ignores_session_key_witness :
    alookup ptA idA = some peerEntryA ∧ peerEntryA.sessionKey = some pubB ∧
      (messengerSendPayload (fun m _ => m) ptA storedBad idA pubC 4).nonce = none ∧
      (messengerSendPayload (fun m _ => m) ptA storedBad idA pubC 4).ciphertext =
        pubC :=
  ⟨rfl, rfl, (send_ignores_session_key (fun m _ => m) ptA storedBad idA pubC 4
      peerEntryA pubB rfl rfl).1,
    (send_ignores_session_key (fun m _ => m) ptA storedBad idA pubC 4
      peerEntryA pubB rfl rfl).2.1⟩

/-! ## Handshake (src/crypto/handshake.js)

The external X25519 operations enter as parameters: `pub` maps a private key
to its public key (key-pair generation), `dh` computes the shared secret of
a private and a public key.  `hash` is SHA-256 over the concatenated DH
outputs (the simplified HKDF of `deriveKey`).  Randomness enters as the
ephemeral private-key arguments. -/

structure HandshakeMsg where
  nodeId : String
  signingPub : String
  dhPub : Nat
  ephemeralDhPub : Nat
  timestamp : Nat
deriving DecidableEq, Repr

/-- `deriveKey(dh1, dh2)`: hash of the concatenation. -/
def deriveKey (hash : List Nat → List Nat) (dh1 dh2 : List Nat) : List Nat :=
  hash (dh1 ++ dh2)

/-- `initiateHandshake(identity)`: the HANDSHAKE_INIT payload data plus the
retained ephemeral private key. -/
def initiateHandshake (pub : Nat → Nat) (nodeId signingPub : String)
    (dhPriv ephPriv : Nat) (now : Nat) : HandshakeMsg × Nat :=
  (⟨nodeId, signingPub, pub dhPriv, pub ephPriv, now⟩, ephPriv)

/-- `respondHandshake(initData, identity)`: double DH and session-key
derivation on the responder, plus the HANDSHAKE_RESP payload data. -/
def respondHandshake (pub : Nat → Nat) (dh : Nat → Nat → List Nat)
    (hash : List Nat → List Nat) (initData : HandshakeMsg)
    (nodeId signingPub : String) (dhPriv ephPriv : Nat) (now : Nat) :
    HandshakeMsg × List Nat :=
  let dh1 := dh ephPriv initData.ephemeralDhPub
  let dh2 := dh dhPriv initData.dhPub
  let sessionKey := deriveKey hash dh1 dh2
  (⟨nodeId, signingPub, pub dhPriv, pub ephPriv, now⟩, sessionKey)

/-- `finalizeHandshake(respData, ephemeralPriv, identity)`: the initiator's
double DH over the responder's published keys. -/
def finalizeHandshake (dh : Nat → Nat → List Nat) (hash : List Nat → List Nat)
    (respData : HandshakeMsg) (ephemeralPriv dhPriv : Nat) : List Nat :=
  deriveKey hash (dh ephemeralPriv respData.ephemeralDhPub)
    (dh dhPriv respData.dhPub)

/-- C4: when the responder answers the initiator's HANDSHAKE_INIT and the
initiator finalises with its retained ephemeral private key, both sides
derive the same session key, of 32 bytes — given the Diffie-Hellman
exchange law and the digest length of the external primitives. -/
theorem handshake_agreement (pub : Nat → Nat) (dh : Nat → Nat → List Nat)
    (hash : List Nat → List Nat)
    (hcomm : ∀ a b, dh a (pub b) = dh b (pub a))
    (h32 : ∀ x, (hash x).length = 32)
    (aId aPub bId bPub : String) (aDhPriv aEphPriv bDhPriv bEphPriv t1 t2 : Nat) :
    finalizeHandshake dh hash
        (respondHandshake pub dh hash
          (initiateHandshake pub aId aPub aDhPriv aEphPriv t1).1
          bId bPub bDhPriv bEphPriv t2).1
        (initiateHandshake pub aId aPub aDhPriv aEphPriv t1).2 aDhPriv =
      (respondHandshake pub dh hash
        (initiateHandshake pub aId aPub aDhPriv aEphPriv t1).1
        bId bPub bDhPriv bEphPriv t2).2 ∧
    (respondHandshake pub dh hash
        (initiateHandshake pub aId aPub aDhPriv aEphPriv t1).1
        bId bPub bDhPriv bEphPriv t2).2.length = 32 := by
  constructor
  · simp only [initiateHandshake, respondHandshake, finalizeHandshake, deriveKey]
    rw [hcomm aEphPriv bEphPriv, hcomm aDhPriv bDhPriv]
  · exact h32 _

def pubW : Nat → Nat := fun a => a

def dhW : Nat → Nat → List Nat := fun a b => [a * b]

def hashW : List Nat → List Nat := fun x => List.replicate 32 (x.headD 0)

/-- Witness for C4: the agreement evaluated with a concrete commutative
Diffie-Hellman model. -/
theorem handshake_agreement_witness :
    (∀ a b, dhW a (pubW b) = dhW b (pubW a)) ∧ (∀ x, (hashW x).length = 32) ∧
      finalizeHandshake dhW hashW
          (respondHandshake pubW dhW hashW
            (initiateHandshake pubW idA pubA 2 3 0).1 pubB pubC 5 7 1).1
          (initiateHandshake pubW idA pubA 2 3 0).2 2 =
        (respondHandshake pubW dhW hashW
          (initiateHandshake pubW idA pubA 2 3 0).1 pubB pubC 5 7 1).2 :=
  ⟨fun a b => by simp [dhW, pubW, Nat.mul_comm],
    fun x => by simp [hashW],
    (handshake_agreement pubW dhW hashW
      (fun a b => by simp [dhW, pubW, Nat.mul_comm])
      (fun x => by simp [hashW]) idA pubA pubB pubC 2 3 5 7 0 1).1⟩

end Archipel
